import Mathlib

/-!
Shallow embedding of the Blender addon `blender_geonodes_to_shapekey`
(`src/__init__.py`): three operators (`GEO_OT_GeoNodesPrep.execute`,
`GEO_OT_MergeToShapeKeys.execute`, `GEO_OT_RenameAndDelete.execute`) acting on
a scene of named objects carrying modifiers, meshes and shape-key blocks.

Modelling conventions:
* Python strings are sequences of characters, so `str.startswith`,
  `str.endswith` and `str.replace` are modelled on `String.data : List Char`
  with structural recursion (the behaviour is identical; the list form keeps
  every definition kernel-computable).
* `int(...)` (as used in the operators' `idx` helpers, where a parse failure
  is caught and mapped to 0) is modelled by `pyInt?`.
* `list.sort(key=...)` is Python's stable sort; any two stable sorts agree,
  so it is modelled by the stable `List.insertionSort`.
* Scene coordinates and keyframe values are modelled as exact integers: every
  value the addon writes (`2*(i+1)` offsets, key values 0/1, `eval_time`
  targets, frame numbers) is an integer.
* Assigning a property and immediately calling `keyframe_insert` on it is
  modelled by passing the assigned value to the insertion; `keyframe_insert`
  adds a point with Blender's default interpolation (`"BEZIER"`), replacing
  any point at the same frame, keeping points ordered by frame.
* An operator invocation either returns CANCELLED after `self.report({"ERROR"}, msg)`
  (`OpResult.cancelled msg`), returns FINISHED (`OpResult.finished`), or
  raises an uncaught Python exception (`OpResult.raised`); each carries the
  scene state at that point, since Blender data mutations take effect
  immediately.
-/

namespace GeoNodesShapeKey

/-- Python `s.startswith(p)`: `p` is a character-sequence prefix of `s`. -/
def strStartsWith (s p : String) : Bool :=
  p.data.isPrefixOf s.data

/-- Python `s.endswith(p)`: `p` is a character-sequence suffix of `s`. -/
def strEndsWith (s p : String) : Bool :=
  p.data.isSuffixOf s.data

/-- Left-to-right, non-overlapping replacement of `pat` by `rep`, the scan that
Python's `str.replace` performs. The fuel argument (instantiated with the
length of the scanned list) only makes the recursion structural. -/
def replaceLoop (pat rep : List Char) : Nat → List Char → List Char
  | 0, cs => cs
  | _ + 1, [] => []
  | fuel + 1, c :: cs =>
    if pat.isPrefixOf (c :: cs) then
      rep ++ replaceLoop pat rep fuel ((c :: cs).drop pat.length)
    else
      c :: replaceLoop pat rep fuel cs

/-- Python `s.replace(pat, rep)` (replace all occurrences). -/
def strReplace (s pat rep : String) : String :=
  ⟨replaceLoop pat.data rep.data s.data.length s.data⟩

/-- Numeric value of a run of decimal digits. -/
def digitsVal (cs : List Char) : Nat :=
  cs.foldl (fun a c => a * 10 + (c.toNat - 48)) 0

/-- Python `int(s)` for decimal strings: surrounding whitespace is stripped, an
optional sign is allowed, and at least one digit is required; `none` models
the `ValueError` that the addon's `idx` helpers catch and turn into 0. -/
def pyInt? (s : String) : Option Int :=
  let cs := ((s.data.dropWhile Char.isWhitespace).reverse.dropWhile Char.isWhitespace).reverse
  let p : Int × List Char :=
    match cs with
    | '-' :: rest => (-1, rest)
    | '+' :: rest => (1, rest)
    | _ => (1, cs)
  if p.2.isEmpty then none
  else if p.2.all Char.isDigit then some (p.1 * (digitsVal p.2 : Int))
  else none

/-- An object location (`mathutils.Vector`, here with exact coordinates). -/
structure Loc where
  x : Int
  y : Int
  z : Int
deriving Repr, DecidableEq, Inhabited

/-- A modifier on an object; only its `type` is ever inspected. -/
structure Modifier where
  type : String
deriving Repr, DecidableEq, Inhabited

/-- One keyframe point of an f-curve. -/
structure Keyframe where
  frame : Int
  value : Int
  interpolation : String := "BEZIER"
deriving Repr, DecidableEq, Inhabited

/-- An f-curve of the shape-key action, identified by its `data_path`. -/
structure FCurve where
  data_path : String
  keyframe_points : List Keyframe
deriving Repr, DecidableEq, Inhabited

/-- The shape-key block of a mesh (`object.data.shape_keys`): its key blocks
(by name, in insertion order), the relative/absolute toggle, the current
`eval_time`, and its animation data (an action holding f-curves). -/
structure ShapeKeyBlock where
  key_blocks : List String
  use_relative : Bool := true
  eval_time : Int := 0
  has_anim : Bool := false
  fcurves : List FCurve := []
deriving Repr, DecidableEq, Inhabited

/-- A scene object. `bakedFrom`/`bakedFrame` record the provenance of a mesh
produced by `bpy.data.meshes.new_from_object` (which source object was
evaluated, and at which scene frame). -/
structure Obj where
  name : String
  location : Loc := ⟨0, 0, 0⟩
  modifiers : List Modifier := []
  bakedFrom : Option String := none
  bakedFrame : Option Int := none
  shape_keys : Option ShapeKeyBlock := none
  select : Bool := false
deriving Repr, DecidableEq, Inhabited

/-- The scene: its objects, the current frame, the interaction mode
(`context.mode`) and the active object (by name). -/
structure Scene where
  objects : List Obj
  frame_current : Int := 0
  mode : String := "OBJECT"
  active : Option String := none
deriving Repr, DecidableEq, Inhabited

/-- Outcome of one operator invocation, with the scene state at that point. -/
inductive OpResult (σ : Type) where
  | cancelled (msg : String) (state : σ)
  | finished (state : σ)
  | raised (exc : String) (state : σ)
deriving Repr, DecidableEq

/-- The scene state carried by any outcome. -/
def stateOf : OpResult Scene → Scene
  | .cancelled _ s => s
  | .finished s => s
  | .raised _ s => s

/-- Whether the invocation returned FINISHED. -/
def isFinished : OpResult Scene → Bool
  | .finished _ => true
  | _ => false

/-- Whether the invocation reported an error and returned CANCELLED. -/
def isCancelled : OpResult Scene → Bool
  | .cancelled _ _ => true
  | _ => false

/-! ### Snapshot stage: `GEO_OT_GeoNodesPrep.execute` -/

/-- The object created in iteration `i` of the prep loop (lines 65-82):
`scene.frame_set(i*10)`, bake the evaluated mesh of `base`, name the new
object `copy{i+1}`, copy the base location and add `2*(i+1)` to its y. -/
def prepCopy (base : Obj) (i : Nat) : Obj :=
  { name := "copy" ++ toString (i + 1),
    location := { x := base.location.x,
                  y := base.location.y + 2 * ((i : Int) + 1),
                  z := base.location.z },
    bakedFrom := some base.name,
    bakedFrame := some ((i : Int) * 10) }

/-- One iteration of the prep loop: set the scene frame, then link the newly
baked copy into the scene collection. -/
def prepStep (base : Obj) (scene : Scene) (i : Nat) : Scene :=
  let scene := { scene with frame_current := (i : Int) * 10 }
  { scene with objects := scene.objects ++ [prepCopy base i] }

/-- The prep loop `for i in range(total)`. -/
def prepLoop (base : Obj) (total : Nat) (scene : Scene) : Scene :=
  (List.range total).foldl (prepStep base) scene

/-- The snapshot operator `GEO_OT_GeoNodesPrep.execute`: validate that an object is selected and
carries a geometry-nodes modifier, run the bake loop, then restore the
previously active object. -/
def prepExecute (base_obj? : Option Obj) (total : Nat) (scene : Scene) :
    OpResult Scene :=
  match base_obj? with
  | none => .cancelled "No object selected." scene
  | some base_obj =>
    match base_obj.modifiers.find? (fun m => m.type == "NODES") with
    | none => .cancelled "Selected object has no Geometry Nodes modifier." scene
    | some _ =>
      let original_active := scene.active
      let scene := prepLoop base_obj total scene
      let scene :=
        if original_active.isSome then { scene with active := original_active }
        else scene
      .finished scene

/-! ### Shared by the merge and cleanup stages -/

/-- The snapshot collection `[o for o in scene.objects if o.name.startswith("copy")]`. -/
def copiesOf (s : Scene) : List Obj :=
  s.objects.filter (fun o => strStartsWith o.name "copy")

/-- The `idx` sort key used by both stages: `int(o.name.replace("copy", ""))`,
with any exception mapped to 0. -/
def idx (o : Obj) : Int :=
  (pyInt? (strReplace o.name "copy" "")).getD 0

/-- Comparison underlying `copies.sort(key=idx)`. -/
def idxLE : Obj → Obj → Prop := fun a b => idx a ≤ idx b

instance : DecidableRel idxLE := fun a b => Int.decLe (idx a) (idx b)

instance : IsTotal Obj idxLE := ⟨fun a b => Int.le_total (idx a) (idx b)⟩

instance : IsTrans Obj idxLE := ⟨fun _ _ _ h h' => Int.le_trans h h'⟩

/-- Model of `copies.sort(key=idx)`: Python's sort is stable, and all stable sorts
agree, so it is modelled by the stable insertion sort. -/
def sortCopies (cs : List Obj) : List Obj :=
  List.insertionSort idxLE cs

/-! ### Merge stage: `GEO_OT_MergeToShapeKeys.execute` -/

/-- The mode normalization `if context.mode != "OBJECT": bpy.ops.object.mode_set(mode="OBJECT")` —
this runs before the snapshot-count validation. -/
def modeFix (s : Scene) : Scene :=
  if s.mode ≠ "OBJECT" then { s with mode := "OBJECT" } else s

/-- Model of `bpy.ops.object.shape_key_add(from_mix=False)` on the active object: with
no existing block it creates one whose only key is the Basis; otherwise it
appends a fresh key to the existing block. -/
def shapeKeyAdd (sk? : Option ShapeKeyBlock) : ShapeKeyBlock :=
  match sk? with
  | none => { key_blocks := ["Basis"] }
  | some sk =>
    { sk with key_blocks := sk.key_blocks ++ ["Key " ++ toString sk.key_blocks.length] }

/-- The join loop (lines 136-139): each `bpy.ops.object.join_shapes()` adds
one shape key, named after the joined object, to the active object's block
(the joined objects themselves are not modified or removed). -/
def joinShapes (sk : ShapeKeyBlock) (rest : List Obj) : ShapeKeyBlock :=
  rest.foldl (fun sk o => { sk with key_blocks := sk.key_blocks ++ [o.name] }) sk

/-- Model of `if not sk_block.animation_data: sk_block.animation_data_create()`. -/
def ensureAnim (sk : ShapeKeyBlock) : ShapeKeyBlock :=
  if !sk.has_anim then { sk with has_anim := true } else sk

/-- Insert a keyframe into one f-curve's point list: points stay ordered by
frame and a point at an existing frame is replaced. -/
def insertPoint : List Keyframe → Int → Int → List Keyframe
  | [], f, v => [{ frame := f, value := v }]
  | k :: ks, f, v =>
    if f < k.frame then { frame := f, value := v } :: k :: ks
    else if f = k.frame then { frame := f, value := v } :: ks
    else k :: insertPoint ks f v

/-- Model of `keyframe_insert(data_path, frame)` with the property's current value:
the f-curve for `path` is created at the end of the action's curve list if
absent, then the point is inserted. -/
def insertKey (fcs : List FCurve) (path : String) (f v : Int) : List FCurve :=
  if fcs.any (fun fc => fc.data_path == path) then
    fcs.map (fun fc =>
      if fc.data_path == path then
        { fc with keyframe_points := insertPoint fc.keyframe_points f v }
      else fc)
  else fcs ++ [{ data_path := path, keyframe_points := [{ frame := f, value := v }] }]

/-- Set every keyframe of an f-curve to linear interpolation. -/
def setLinear (fc : FCurve) : FCurve :=
  { fc with keyframe_points :=
      fc.keyframe_points.map (fun kp => { kp with interpolation := "LINEAR" }) }

/-- The interpolation pass `for fcu in action.fcurves: if p(fcu.data_path): ... kp.interpolation = "LINEAR"`. -/
def forceLinearOn (fcs : List FCurve) (p : String → Bool) : List FCurve :=
  fcs.map (fun fc => if p fc.data_path then setLinear fc else fc)

/-- The f-curve data path of a shape key's `value` property. -/
def valuePath (n : String) : String :=
  "key_blocks[\"" ++ n ++ "\"].value"

/-- The path test of the relative-mode interpolation pass:
`fcu.data_path.startswith("key_blocks[") and fcu.data_path.endswith("].value")`. -/
def isValuePath (p : String) : Bool :=
  strStartsWith p "key_blocks[" && strEndsWith p "].value"

/-- The absolute branch (lines 143-165): disable relative blending, ensure
animation data, key `eval_time` to 0 at frame 1 and to `(len(copies)-1)*10`
at frame `(len(copies)-1)*24`, then force linear interpolation on the
`eval_time` curve. `numCopies` is `len(copies)`. -/
def absoluteBranch (numCopies : Nat) (sk : ShapeKeyBlock) : ShapeKeyBlock :=
  let sk := { sk with use_relative := false }
  let start_frame : Int := 1
  let end_frame : Int := ((numCopies : Int) - 1) * 24
  let sk := ensureAnim sk
  let sk := { sk with eval_time := 0 }
  let sk := { sk with fcurves := insertKey sk.fcurves "eval_time" start_frame sk.eval_time }
  let sk := { sk with eval_time := ((numCopies : Int) - 1) * 10 }
  let sk := { sk with fcurves := insertKey sk.fcurves "eval_time" end_frame sk.eval_time }
  { sk with fcurves := forceLinearOn sk.fcurves (fun p => p == "eval_time") }

/-- One iteration of the keyframe loop (lines 184-209) for the shape key of
name `n` at enumeration index `i`, where `K = len(shape_keys)`: key value 0
at `i*10`, value 1 at `i*10+10`, and — only when `i < K-1` — value 0 at
`i*10+20`; then force linear interpolation on every shape-key value curve. -/
def relStep (K : Nat) (sk : ShapeKeyBlock) (i : Nat) (n : String) : ShapeKeyBlock :=
  let stp : Int := 10
  let start := (i : Int) * stp
  let peak := start + stp
  let stop := start + 2 * stp
  let path := valuePath n
  let fcs := insertKey sk.fcurves path start 0
  let fcs := insertKey fcs path peak 1
  let fcs := if i < K - 1 then insertKey fcs path stop 0 else fcs
  { sk with fcurves := forceLinearOn fcs isValuePath }

/-- The loop `for i, sk in enumerate(shape_keys)`, carrying the running
enumeration index. -/
def relLoopAux (K : Nat) : Nat → List String → ShapeKeyBlock → ShapeKeyBlock
  | _, [], sk => sk
  | i, n :: rest, sk => relLoopAux K (i + 1) rest (relStep K sk i n)

/-- The full relative-mode keyframe loop over the non-Basis shape keys. -/
def relLoop (K : Nat) (names : List String) (sk : ShapeKeyBlock) : ShapeKeyBlock :=
  relLoopAux K 0 names sk

/-- Write the mutated shape-key block back onto the base object and record the
selection state after the operator body: everything was deselected, then
`copy1` was selected and made active (the join loop's select/deselect of each
other copy cancels out). -/
def mergeWriteBack (scene : Scene) (c1name : String) (blk : ShapeKeyBlock) : Scene :=
  { scene with
    objects := scene.objects.map (fun o =>
      if o.name == c1name then { o with select := true, shape_keys := some blk }
      else { o with select := false }),
    active := some c1name }

/-- The merge operator `GEO_OT_MergeToShapeKeys.execute`. After the joins, the source's
`if not use_relative: ... else: ...` assigns the local variable `shape_keys`
only in the `else` (relative) branch, but the keyframe loop that follows the
conditional is dedented to the method body, so it runs in both modes; in
absolute mode `enumerate(shape_keys)` therefore raises `UnboundLocalError`
(after the `eval_time` curve has already been authored), and only the
relative mode reaches `return {"FINISHED"}`. -/
def mergeExecute (use_relative : Bool) (scene0 : Scene) : OpResult Scene :=
  let scene := modeFix scene0
  let copies := copiesOf scene
  if copies.length < 2 then
    .cancelled "Need at least copy1 and copy2 present." scene
  else
    match sortCopies copies with
    | [] => .raised "IndexError" scene   -- unreachable: sorting keeps the length
    | copy1 :: rest =>
      let sk := shapeKeyAdd copy1.shape_keys
      let sk := joinShapes sk rest
      if !use_relative then
        let sk := absoluteBranch (rest.length + 1) sk
        .raised "UnboundLocalError" (mergeWriteBack scene copy1.name sk)
      else
        let sk := ensureAnim sk
        let shape_keys := sk.key_blocks.filter (fun n => n != "Basis")
        let sk := relLoop shape_keys.length shape_keys sk
        .finished (mergeWriteBack scene copy1.name sk)

/-! ### Cleanup stage: `GEO_OT_RenameAndDelete.execute` -/

/-- The rename step `copy1.name = "shapekey_object"` (lines 246-248), applied
to the object list (objects are identified by name; Blender keeps object
names unique). -/
def renameObjects (objs : List Obj) (c1name : String) : List Obj :=
  objs.map (fun o =>
    if o.name == c1name then { o with name := "shapekey_object" } else o)

/-- The delete loop `for obj in other_copies: bpy.data.objects.remove(obj,
do_unlink=True)` (lines 251-252). -/
def deleteOthers (objs : List Obj) (other_copies : List Obj) : List Obj :=
  objs.filter (fun o => !(other_copies.any (fun c => c.name == o.name)))

/-- The cleanup operator `GEO_OT_RenameAndDelete.execute`: with no snapshots, report and cancel;
otherwise sort the snapshots by `idx`, rename the first to
`"shapekey_object"`, and remove every other snapshot from the data store. -/
def renameAndDeleteExecute (scene : Scene) : OpResult Scene :=
  let copies := copiesOf scene
  if copies.isEmpty then
    .cancelled "No objects named 'copy1', 'copy2', etc. found." scene
  else
    match sortCopies copies with
    | [] => .raised "IndexError" scene   -- unreachable: sorting keeps the length
    | copy1 :: other_copies =>
      let objs := renameObjects scene.objects copy1.name
      let objs := deleteOthers objs other_copies
      .finished { scene with objects := objs }

/-! ### Claim-side and auxiliary definitions

The expected-curve definitions restate C2's prediction: the target at
0-based ordinal `i` (of `K` non-basis targets) carries value keyframes 0 at
frame `i*10` and 1 at frame `i*10+10`, plus — exactly when `i < K-1` — value
0 at frame `i*10+20`, all with linear interpolation. They are compared
against what `mergeExecute` computes. -/

/-- The curve C2 predicts for the target named `n` at ordinal `i` of `K`. -/
def relCurveSpec (n : String) (i K : Nat) : FCurve :=
  { data_path := valuePath n,
    keyframe_points :=
      [{ frame := (i : Int) * 10, value := 0, interpolation := "LINEAR" },
       { frame := (i : Int) * 10 + 10, value := 1, interpolation := "LINEAR" }] ++
      (if i < K - 1 then
        [{ frame := (i : Int) * 10 + 20, value := 0, interpolation := "LINEAR" }]
      else []) }

/-- The curves C2 predicts for the targets `names`, starting at ordinal `i`. -/
def relCurvesSpec (i K : Nat) : List String → List FCurve
  | [] => []
  | n :: rest => relCurveSpec n i K :: relCurvesSpec (i + 1) K rest

/-- The curve for target `n` at ordinal `i` after its first keyframe, before
the interpolation pass (default interpolation still in place). -/
def rawCurve1 (n : String) (i : Nat) : FCurve :=
  { data_path := valuePath n,
    keyframe_points := [{ frame := (i : Int) * 10, value := 0 }] }

/-- The same curve after its second keyframe. -/
def rawCurve2 (n : String) (i : Nat) : FCurve :=
  { data_path := valuePath n,
    keyframe_points := [{ frame := (i : Int) * 10, value := 0 },
      { frame := (i : Int) * 10 + 10, value := 1 }] }

/-- The same curve after its third keyframe. -/
def rawCurve3 (n : String) (i : Nat) : FCurve :=
  { data_path := valuePath n,
    keyframe_points := [{ frame := (i : Int) * 10, value := 0 },
      { frame := (i : Int) * 10 + 10, value := 1 },
      { frame := (i : Int) * 10 + 2 * 10, value := 0 }] }

/-- The shape-key block of the base object right before the keyframe loop in
relative mode: Basis plus one joined key per remaining snapshot, animation
data created, no f-curves yet. -/
def relBaseBlock (names : List String) : ShapeKeyBlock :=
  { key_blocks := "Basis" :: names,
    use_relative := true,
    eval_time := 0,
    has_anim := true,
    fcurves := [] }

/-- Reading a shape-key block of the named object off the scene. -/
def findShapeKeys (s : Scene) (n : String) : Option ShapeKeyBlock :=
  (s.objects.find? (fun o => o.name == n)).bind (fun o => o.shape_keys)

/-! ### Concrete fixtures used by the witnesses -/

/-- A source object carrying a geometry-nodes modifier. -/
def srcObj : Obj :=
  { name := "src", location := ⟨1, 2, 3⟩, modifiers := [⟨"NODES"⟩] }

/-- An empty scene at frame 5. -/
def emptyScene : Scene := { objects := [], frame_current := 5 }

/-- A bare object of the given name. -/
def copyObj (n : String) : Obj := { name := n }

/-- A scene in edit mode with no snapshot objects. -/
def editModeScene : Scene := { objects := [copyObj "plain"], mode := "EDIT_MESH" }

/-- A scene holding exactly the two fresh snapshots `copy1` and `copy2`. -/
def absScene : Scene := { objects := [copyObj "copy1", copyObj "copy2"] }

/-- A scene with two snapshots listed out of order plus a non-snapshot. -/
def cleanupScene : Scene :=
  { objects := [copyObj "copy2", { name := "lamp" }, copyObj "copy1"] }

/-- A scene holding the three fresh snapshots `copy1`, `copy2`, `copy3`. -/
def relScene : Scene :=
  { objects := [copyObj "copy1", copyObj "copy2", copyObj "copy3"] }

/-! ## Verification

### Snapshot-stage lemmas -/

theorem prepLoop_succ (base : Obj) (n : Nat) (scene : Scene) :
    prepLoop base (n + 1) scene = prepStep base (prepLoop base n scene) n := by
  unfold prepLoop
  rw [List.range_succ, List.foldl_append]
  rfl

theorem prepLoop_eq (base : Obj) (n : Nat) (scene : Scene) :
    prepLoop base (n + 1) scene =
      { scene with
        objects := scene.objects ++ (List.range (n + 1)).map (prepCopy base),
        frame_current := (n : Int) * 10 } := by
  induction n with
  | zero =>
    have h1 : List.range 1 = [0] := rfl
    simp [prepLoop, prepStep, h1]
  | succ k ih =>
    rw [prepLoop_succ, ih]
    simp [prepStep, List.range_succ]

/-- Shared characterization of a valid snapshot-stage invocation. -/
theorem prepExecute_eq (base : Obj) (total : Nat) (scene : Scene)
    (h : (base.modifiers.find? (fun m => m.type == "NODES")).isSome)
    (ht : 1 ≤ total) :
    prepExecute (some base) total scene =
      .finished { scene with
        objects := scene.objects ++ (List.range total).map (prepCopy base),
        frame_current := ((total - 1 : Nat) : Int) * 10 } := by
  obtain ⟨m, hm⟩ := Option.isSome_iff_exists.mp h
  obtain ⟨k, rfl⟩ : ∃ k, total = k + 1 := ⟨total - 1, by omega⟩
  unfold prepExecute
  simp only [hm, prepLoop_eq]
  split <;> simp

/-! ### Snapshot-stage claims -/

/-- C3: invoking the snapshot stage on a source object that exists and carries
a node-based (`"NODES"`) modifier with sample count `N ≥ 1` finishes and
creates exactly the `N` new objects `prepCopy base 0 .. prepCopy base (N-1)`,
appended to the scene; the `i`-th (0-based) is named `copy{i+1}`, is baked
from the source evaluated at scene frame `i*10`, and sits at the source
location shifted by `2*(i+1)` along y. -/
theorem prep_snapshot_creation (base : Obj) (scene : Scene) (N : Nat)
    (hmod : (base.modifiers.find? (fun m => m.type == "NODES")).isSome)
    (hN : 1 ≤ N) :
    prepExecute (some base) N scene =
      .finished { scene with
        objects := scene.objects ++ (List.range N).map (prepCopy base),
        frame_current := ((N - 1 : Nat) : Int) * 10 } ∧
    ∀ i, i < N →
      (prepCopy base i).name = "copy" ++ toString (i + 1) ∧
      (prepCopy base i).bakedFrom = some base.name ∧
      (prepCopy base i).bakedFrame = some ((i : Int) * 10) ∧
      (prepCopy base i).location.y = base.location.y + 2 * ((i : Int) + 1) :=
  ⟨prepExecute_eq base N scene hmod hN, fun _ _ => ⟨rfl, rfl, rfl, rfl⟩⟩

/-- Witness for C3 at `N = 3` on a concrete source object. -/
theorem prep_snapshot_creation_witness :
    (prepExecute (some srcObj) 3 emptyScene =
      .finished { emptyScene with
        objects := emptyScene.objects ++ (List.range 3).map (prepCopy srcObj),
        frame_current := ((3 - 1 : Nat) : Int) * 10 }) ∧
    (stateOf (prepExecute (some srcObj) 3 emptyScene)).objects.map (fun o => o.name) =
      ["copy1", "copy2", "copy3"] := by
  refine ⟨(prep_snapshot_creation srcObj emptyScene 3 (by decide) (by decide)).1, ?_⟩
  rw [(prep_snapshot_creation srcObj emptyScene 3 (by decide) (by decide)).1]
  decide

/-- C9: after a successful snapshot-stage invocation with sample count `N`,
the scene's current frame is `(N-1)*10` — the time of the last sample —
whatever the frame was before the invocation (the quantification over
`scene` includes every starting frame, so the original frame is not
restored). -/
theorem prep_frame_not_restored (base : Obj) (scene : Scene) (N : Nat)
    (hmod : (base.modifiers.find? (fun m => m.type == "NODES")).isSome)
    (hN : 1 ≤ N) :
    (stateOf (prepExecute (some base) N scene)).frame_current =
      ((N - 1 : Nat) : Int) * 10 := by
  rw [prepExecute_eq base N scene hmod hN]
  rfl

/-- Witness for C9: starting at frame 5 with `N = 3`, the scene is left at
frame 20, not restored to 5. -/
theorem prep_frame_not_restored_witness :
    (stateOf (prepExecute (some srcObj) 3 emptyScene)).frame_current = 20 ∧
    emptyScene.frame_current = 5 := by
  refine ⟨?_, rfl⟩
  rw [prep_frame_not_restored srcObj emptyScene 3 (by decide) (by decide)]
  decide

/-- C10: each snapshot created by a successful snapshot-stage invocation has
the source object's x and z coordinates; only its y coordinate differs (by
`2*(i+1)` for the `i`-th copy, 0-based). -/
theorem prep_offset_only_y (base : Obj) (scene : Scene) (N i : Nat)
    (hmod : (base.modifiers.find? (fun m => m.type == "NODES")).isSome)
    (hi : i < N) :
    ((stateOf (prepExecute (some base) N scene)).objects.getD
        (scene.objects.length + i) default).location =
      { x := base.location.x,
        y := base.location.y + 2 * ((i : Int) + 1),
        z := base.location.z } := by
  rw [prepExecute_eq base N scene hmod (by omega)]
  show ((scene.objects ++ (List.range N).map (prepCopy base)).getD
    (scene.objects.length + i) default).location = _
  rw [List.getD_eq_getElem?_getD, List.getElem?_append_right (by omega),
    Nat.add_sub_cancel_left, List.getElem?_map, List.getElem?_range hi]
  rfl

/-- Witness for C10 at `N = 3`, `i = 1`. -/
theorem prep_offset_only_y_witness :
    ((stateOf (prepExecute (some srcObj) 3 emptyScene)).objects.getD
        (emptyScene.objects.length + 1) default).location = ⟨1, 6, 3⟩ := by
  rw [prep_offset_only_y srcObj emptyScene 3 1 (by decide) (by decide)]
  decide

/-- C5: a snapshot-stage invocation with no selected object, or whose selected
object has no `"NODES"` modifier, reports an error, returns CANCELLED, and
leaves the scene exactly as it was (zero new objects, no mutation). -/
theorem prep_invalid_input_no_mutation (base_obj? : Option Obj) (total : Nat)
    (scene : Scene)
    (h : base_obj? = none ∨ ∃ b, base_obj? = some b ∧
          b.modifiers.find? (fun m => m.type == "NODES") = none) :
    isCancelled (prepExecute base_obj? total scene) = true ∧
    stateOf (prepExecute base_obj? total scene) = scene := by
  rcases h with h | ⟨b, rfl, hb⟩
  · subst h
    exact ⟨rfl, rfl⟩
  · unfold prepExecute
    simp only [hb]
    exact ⟨rfl, rfl⟩

/-- Witness for C5: an object without modifiers. -/
theorem prep_invalid_input_no_mutation_witness :
    isCancelled (prepExecute (some (copyObj "plain")) 4 emptyScene) = true ∧
    stateOf (prepExecute (some (copyObj "plain")) 4 emptyScene) = emptyScene :=
  prep_invalid_input_no_mutation (some (copyObj "plain")) 4 emptyScene
    (Or.inr ⟨copyObj "plain", rfl, by decide⟩)

/-! ### Shared merge/cleanup lemmas -/

theorem modeFix_objects (s : Scene) : (modeFix s).objects = s.objects := by
  unfold modeFix
  split <;> rfl

theorem modeFix_eq (s : Scene) : modeFix s = { s with mode := "OBJECT" } := by
  unfold modeFix
  split
  · rfl
  · next h =>
    simp only [ne_eq, Decidable.not_not] at h
    cases s
    simp_all

theorem copiesOf_modeFix (s : Scene) : copiesOf (modeFix s) = copiesOf s := by
  unfold copiesOf
  rw [modeFix_objects]

theorem sortCopies_perm (cs : List Obj) : List.Perm (sortCopies cs) cs :=
  List.perm_insertionSort idxLE cs

theorem mem_copiesOf {scene : Scene} {o : Obj} (h : o ∈ copiesOf scene) :
    o ∈ scene.objects ∧ strStartsWith o.name "copy" = true := by
  unfold copiesOf at h
  exact ⟨(List.mem_filter.mp h).1, (List.mem_filter.mp h).2⟩

theorem mem_of_mem_sortCopies {cs : List Obj} {o : Obj}
    (h : o ∈ sortCopies cs) : o ∈ cs :=
  ((sortCopies_perm cs).mem_iff).mp h

/-- A name starting with `"copy"` is not the final cleanup name. -/
theorem copy_name_ne_shapekey {n : String}
    (h : strStartsWith n "copy" = true) : n ≠ "shapekey_object" := by
  intro hn
  rw [hn] at h
  exact absurd h (by decide)

/-- A name starting with `"copy"` is not `"Basis"`. -/
theorem copy_name_ne_basis {n : String}
    (h : strStartsWith n "copy" = true) : n ≠ "Basis" := by
  intro hn
  rw [hn] at h
  exact absurd h (by decide)

theorem mergeWriteBack_names (scene : Scene) (c1 : String) (blk : ShapeKeyBlock) :
    (mergeWriteBack scene c1 blk).objects.map (fun o => o.name) =
      scene.objects.map (fun o => o.name) := by
  unfold mergeWriteBack
  rw [List.map_map]
  apply List.map_congr_left
  intro o _
  by_cases h : o.name == c1 <;> simp [h] <;> split <;> rfl

/-! ### Merge-stage claims: validation (C4) -/

/-- Counterexample to C4 as stated: invoking the merge stage in edit mode with
fewer than two snapshots reports an error, but the scene state is *not*
unchanged — the interaction mode was already switched to object mode before
the validation check (lines 103-104 run before lines 111-114). -/
theorem merge_validation_mode_mutation :
    isCancelled (mergeExecute true editModeScene) = true ∧
    stateOf (mergeExecute true editModeScene) ≠ editModeScene := by
  decide

/-- C4 (amended): a merge-stage invocation with fewer than two snapshot
(`copy*`) objects reports an error and aborts, and the only state change is
the pre-validation normalization of the interaction mode to `"OBJECT"`; in
particular no object and no morph-target (shape-key) data is mutated. -/
theorem merge_too_few_copies_cancels (use_relative : Bool) (scene : Scene)
    (h : (copiesOf scene).length < 2) :
    mergeExecute use_relative scene =
      .cancelled "Need at least copy1 and copy2 present."
        { scene with mode := "OBJECT" } := by
  simp only [mergeExecute, copiesOf_modeFix]
  rw [if_pos h, modeFix_eq]

/-- Witness for the amended C4. -/
theorem merge_too_few_copies_cancels_witness :
    mergeExecute true editModeScene =
      .cancelled "Need at least copy1 and copy2 present."
        { editModeScene with mode := "OBJECT" } :=
  merge_too_few_copies_cancels true editModeScene (by decide)

/-! ### Merge-stage claims: absolute mode (C1) -/

/-- C1 evaluated on the code: in absolute mode (relative flag false) with the
two snapshots `copy1`, `copy2` present, the merge stage does *not* complete.
It authors exactly the claimed `eval_time` curve — two keyframes `(1, 0)` and
`((2-1)*24, (2-1)*10) = (24, 10)`, both linear — and authors no per-target
value keyframes, but then raises `UnboundLocalError`: the keyframe loop after
the mode conditional is dedented to the method body and reads the local
`shape_keys`, which only the relative branch assigns. -/
theorem merge_absolute_raises_unbound_local :
    mergeExecute false absScene =
      .raised "UnboundLocalError"
        { objects := [
            { name := "copy1",
              shape_keys := some
                { key_blocks := ["Basis", "copy2"],
                  use_relative := false,
                  eval_time := 10,
                  has_anim := true,
                  fcurves := [{ data_path := "eval_time",
                                keyframe_points := [
                                  { frame := 1, value := 0, interpolation := "LINEAR" },
                                  { frame := 24, value := 10, interpolation := "LINEAR" }] }] },
              select := true },
            copyObj "copy2" ],
          active := some "copy1" } := by
  decide

/-! ### Merge-stage claims: no deletion (C8) -/

/-- C8: a merge-stage invocation that passes its validation deletes no object
from the scene — the objects (by name, in order) are exactly those present
before, in both modes (the absolute mode stops in an exception, but the
object list at that point is likewise unchanged). -/
theorem merge_no_object_deleted (use_relative : Bool) (scene : Scene)
    (h : 2 ≤ (copiesOf scene).length) :
    (stateOf (mergeExecute use_relative scene)).objects.map (fun o => o.name) =
      scene.objects.map (fun o => o.name) := by
  simp only [mergeExecute, copiesOf_modeFix]
  rw [if_neg (by omega)]
  cases hs : sortCopies (copiesOf scene) with
  | nil =>
    show (stateOf (.raised "IndexError" (modeFix scene))).objects.map _ = _
    show (modeFix scene).objects.map _ = _
    rw [modeFix_objects]
  | cons c1 rest =>
    cases use_relative with
    | false =>
      show (stateOf (.raised "UnboundLocalError" (mergeWriteBack (modeFix scene) c1.name _))).objects.map _ = _
      show (mergeWriteBack (modeFix scene) c1.name _).objects.map _ = _
      rw [mergeWriteBack_names, modeFix_objects]
    | true =>
      show (stateOf (.finished (mergeWriteBack (modeFix scene) c1.name _))).objects.map _ = _
      show (mergeWriteBack (modeFix scene) c1.name _).objects.map _ = _
      rw [mergeWriteBack_names, modeFix_objects]

/-- Witness for C8 on the three-snapshot scene. -/
theorem merge_no_object_deleted_witness :
    (stateOf (mergeExecute true
        { objects := [copyObj "copy1", copyObj "copy2", copyObj "copy3"] })).objects.map
        (fun o => o.name) =
      ({ objects := [copyObj "copy1", copyObj "copy2", copyObj "copy3"] : Scene }).objects.map
        (fun o => o.name) :=
  merge_no_object_deleted true _ (by decide)

/-! ### Snapshot-ordering claim (C7) -/

/-- C7: the ordering index `idx` used by the merge and cleanup stages is a
function of the object's name alone (the numeric content of the name with the
substring `"copy"` removed, 0 on a parse failure), and `sortCopies` — the
`copies.sort(key=idx)` both stages perform — processes the snapshots in
ascending `idx` order, keeping exactly the original objects; the closing
concrete case shows the order is numeric, not creation or lexicographic. -/
theorem snapshot_order_by_numeric_suffix :
    (∀ o o' : Obj, o.name = o'.name → idx o = idx o') ∧
    (∀ cs : List Obj, (sortCopies cs).Pairwise idxLE) ∧
    (∀ cs : List Obj, List.Perm (sortCopies cs) cs) ∧
    ((sortCopies [copyObj "copy10", copyObj "copy2", copyObj "copy1"]).map
        (fun o => o.name) = ["copy1", "copy2", "copy10"]) := by
  refine ⟨?_, ?_, ?_, by decide⟩
  · intro o o' h
    unfold idx
    rw [h]
  · intro cs
    exact List.sorted_insertionSort idxLE cs
  · intro cs
    exact List.perm_insertionSort idxLE cs

/-- Witness for C7: the name-determined index at a concrete pair of objects
differing only in selection state, and a concrete sorted permutation. -/
theorem snapshot_order_by_numeric_suffix_witness :
    idx (copyObj "copy7") = idx { name := "copy7", select := true } ∧
    List.Perm (sortCopies [copyObj "copy2", copyObj "copy1"])
      [copyObj "copy2", copyObj "copy1"] :=
  ⟨snapshot_order_by_numeric_suffix.1 (copyObj "copy7")
      { name := "copy7", select := true } rfl,
    snapshot_order_by_numeric_suffix.2.2.1 [copyObj "copy2", copyObj "copy1"]⟩

/-! ### Cleanup-stage claim (C6) -/

/-- Characterization of a cleanup invocation with at least one snapshot. -/
theorem renameAndDeleteExecute_eq (scene : Scene) (c1 : Obj) (rest : List Obj)
    (hsort : sortCopies (copiesOf scene) = c1 :: rest) :
    renameAndDeleteExecute scene = .finished { scene with
      objects := deleteOthers (renameObjects scene.objects c1.name) rest } := by
  have hne : (copiesOf scene).isEmpty = false := by
    rw [List.isEmpty_eq_false]
    intro hcs
    rw [hcs] at hsort
    simp [sortCopies] at hsort
  simp only [renameAndDeleteExecute, hne, Bool.false_eq_true, if_false, hsort]

/-- C6: a cleanup invocation on a scene holding at least one snapshot (the
sorted snapshot list being `c1 :: rest`) finishes; `c1` has minimal `idx`
among all snapshots; `c1` survives renamed to `"shapekey_object"`; no object
named like any other snapshot remains; every non-snapshot object survives
untouched; and when `c1` is the only snapshot nothing is deleted (the object
count is unchanged). -/
theorem cleanup_rename_and_delete (scene : Scene) (c1 : Obj) (rest : List Obj)
    (hsort : sortCopies (copiesOf scene) = c1 :: rest) :
    isFinished (renameAndDeleteExecute scene) = true ∧
    (∀ c ∈ copiesOf scene, idx c1 ≤ idx c) ∧
    { c1 with name := "shapekey_object" } ∈
      (stateOf (renameAndDeleteExecute scene)).objects ∧
    (∀ o ∈ (stateOf (renameAndDeleteExecute scene)).objects,
      ∀ r ∈ rest, o.name ≠ r.name) ∧
    (∀ o ∈ scene.objects, strStartsWith o.name "copy" = false →
      o ∈ (stateOf (renameAndDeleteExecute scene)).objects) ∧
    (rest = [] →
      (stateOf (renameAndDeleteExecute scene)).objects.length =
        scene.objects.length) := by
  have hc1s : c1 ∈ sortCopies (copiesOf scene) := by
    rw [hsort]
    exact List.mem_cons_self _ _
  have hc1copies : c1 ∈ copiesOf scene := mem_of_mem_sortCopies hc1s
  have hc1mem : c1 ∈ scene.objects := (mem_copiesOf hc1copies).1
  have hc1copy : strStartsWith c1.name "copy" = true := (mem_copiesOf hc1copies).2
  have hrestcopy : ∀ r ∈ rest, strStartsWith r.name "copy" = true := by
    intro r hr
    have : r ∈ sortCopies (copiesOf scene) := by
      rw [hsort]
      exact List.mem_cons_of_mem _ hr
    exact (mem_copiesOf (mem_of_mem_sortCopies this)).2
  rw [renameAndDeleteExecute_eq scene c1 rest hsort]
  simp only [stateOf, isFinished, deleteOthers, renameObjects]
  refine ⟨trivial, ?_, ?_, ?_, ?_, ?_⟩
  · -- minimality of the renamed snapshot's index
    have hp : (sortCopies (copiesOf scene)).Pairwise idxLE :=
      List.sorted_insertionSort idxLE (copiesOf scene)
    rw [hsort, List.pairwise_cons] at hp
    intro c hc
    have : c ∈ c1 :: rest := by
      rw [← hsort]
      exact (sortCopies_perm _).mem_iff.mpr hc
    rcases List.mem_cons.mp this with rfl | hr
    · exact le_refl _
    · exact hp.1 c hr
  · -- the lowest-indexed snapshot survives, renamed
    apply List.mem_filter_of_mem
    · exact List.mem_map.mpr ⟨c1, hc1mem, by simp⟩
    · simp only [Bool.not_eq_true']
      rw [List.any_eq_false]
      intro r hr
      simp only [beq_iff_eq]
      exact copy_name_ne_shapekey (hrestcopy r hr)
  · -- every other snapshot's name is gone
    intro o ho r hr
    have hG := List.of_mem_filter ho
    simp only [Bool.not_eq_true'] at hG
    rw [List.any_eq_false] at hG
    have := hG r hr
    simp only [beq_iff_eq] at this
    exact fun h => this (h ▸ rfl)
  · -- non-snapshot objects survive untouched
    intro o ho h0
    have hFo : (if o.name == c1.name then
        ({ o with name := "shapekey_object" } : Obj) else o) = o := by
      rw [if_neg]
      simp only [beq_iff_eq]
      intro h
      have := hc1copy
      rw [← h, h0] at this
      cases this
    apply List.mem_filter_of_mem
    · exact List.mem_map.mpr ⟨o, ho, hFo⟩
    · simp only [Bool.not_eq_true']
      rw [List.any_eq_false]
      intro r hr
      simp only [beq_iff_eq]
      intro h
      have := hrestcopy r hr
      rw [h, h0] at this
      cases this
  · -- with a single snapshot, nothing is deleted
    intro h
    subst h
    have hkeep : ∀ o ∈ List.map (fun o =>
        if o.name == c1.name then ({ o with name := "shapekey_object" } : Obj) else o)
        scene.objects,
        (!(List.any ([] : List Obj) (fun c => c.name == o.name))) = true :=
      fun _ _ => rfl
    rw [List.filter_eq_self.mpr hkeep, List.length_map]

/-- Witness for C6 on `cleanupScene`. -/
theorem cleanup_rename_and_delete_witness :
    isFinished (renameAndDeleteExecute cleanupScene) = true ∧
    { (copyObj "copy1") with name := "shapekey_object" } ∈
      (stateOf (renameAndDeleteExecute cleanupScene)).objects :=
  ⟨(cleanup_rename_and_delete cleanupScene (copyObj "copy1") [copyObj "copy2"]
      (by decide)).1,
    (cleanup_rename_and_delete cleanupScene (copyObj "copy1") [copyObj "copy2"]
      (by decide)).2.2.1⟩

/-! ### Relative-mode keyframe claim (C2) -/

/-- Inserting on a path absent from the action appends a fresh curve. -/
theorem insertKey_fresh (fcs : List FCurve) (path : String) (f v : Int)
    (h : ∀ fc ∈ fcs, fc.data_path ≠ path) :
    insertKey fcs path f v =
      fcs ++ [{ data_path := path, keyframe_points := [{ frame := f, value := v }] }] := by
  unfold insertKey
  have hany : fcs.any (fun fc => fc.data_path == path) = false := by
    rw [List.any_eq_false]
    intro fc hfc
    simp [h fc hfc]
  simp only [hany, Bool.false_eq_true, if_false]

/-- Inserting on the path of the last curve (fresh everywhere else) updates
only that curve. -/
theorem insertKey_found_last (fcs : List FCurve) (c : FCurve) (path : String)
    (f v : Int)
    (h : ∀ fc ∈ fcs, fc.data_path ≠ path) (hc : c.data_path = path) :
    insertKey (fcs ++ [c]) path f v =
      fcs ++ [{ c with keyframe_points := insertPoint c.keyframe_points f v }] := by
  unfold insertKey
  have hany : (fcs ++ [c]).any (fun fc => fc.data_path == path) = true := by
    simp [List.any_append, hc]
  simp only [hany, if_true]
  rw [List.map_append]
  congr 1
  · conv_rhs => rw [← List.map_id fcs]
    apply List.map_congr_left
    intro fc hfc
    rw [if_neg]
    · rfl
    · simp [h fc hfc]
  · simp [hc]

/-- Setting linear interpolation on an all-linear curve changes nothing. -/
theorem setLinear_of_linear (fc : FCurve)
    (h : ∀ kp ∈ fc.keyframe_points, kp.interpolation = "LINEAR") :
    setLinear fc = fc := by
  unfold setLinear
  cases fc with
  | mk dp kps =>
    simp only [FCurve.mk.injEq, true_and]
    conv_rhs => rw [← List.map_id kps]
    apply List.map_congr_left
    intro kp hkp
    have := h kp hkp
    cases kp
    simp_all

/-- The interpolation pass leaves a list of all-linear curves unchanged. -/
theorem forceLinearOn_of_linear (fcs : List FCurve) (p : String → Bool)
    (h : ∀ fc ∈ fcs, ∀ kp ∈ fc.keyframe_points, kp.interpolation = "LINEAR") :
    forceLinearOn fcs p = fcs := by
  unfold forceLinearOn
  conv_rhs => rw [← List.map_id fcs]
  apply List.map_congr_left
  intro fc hfc
  split
  · exact setLinear_of_linear fc (h fc hfc)
  · rfl

theorem forceLinearOn_append (fcs l : List FCurve) (p : String → Bool) :
    forceLinearOn (fcs ++ l) p = forceLinearOn fcs p ++ forceLinearOn l p := by
  unfold forceLinearOn
  exact List.map_append _ _ _

/-- Every shape-key value path passes the relative-mode path test. -/
theorem isValuePath_valuePath (n : String) : isValuePath (valuePath n) = true := by
  unfold isValuePath valuePath strStartsWith strEndsWith
  rw [Bool.and_eq_true]
  constructor
  · have h1 : ("key_blocks[\"" : String).data = ("key_blocks[" : String).data ++ ['\"'] := rfl
    simp only [String.data_append, h1, List.append_assoc]
    simp [ List.isPrefixOf_iff_prefix]
  · rw [ List.isSuffixOf_iff_suffix, String.data_append, String.data_append]
    exact List.IsSuffix.trans (List.suffix_cons '\"' _) (List.suffix_append _ _)

/-- Distinct shape-key names give distinct value paths. -/
theorem valuePath_injective : Function.Injective valuePath := by
  intro a b h
  have hd := congrArg String.data h
  simp only [valuePath, String.data_append, List.append_assoc] at hd
  have h1 := List.append_cancel_left hd
  have h2 := List.append_cancel_right h1
  cases a
  cases b
  exact congrArg String.mk h2

/-- One relative-mode iteration on a path fresh to an all-linear action
appends exactly the claimed curve. -/
theorem relStep_fresh (K i : Nat) (n : String) (sk : ShapeKeyBlock)
    (hfresh : ∀ fc ∈ sk.fcurves, fc.data_path ≠ valuePath n)
    (hlin : ∀ fc ∈ sk.fcurves, ∀ kp ∈ fc.keyframe_points, kp.interpolation = "LINEAR") :
    relStep K sk i n = { sk with fcurves := sk.fcurves ++ [relCurveSpec n i K] } := by
  have e1 : insertKey sk.fcurves (valuePath n) ((i : Int) * 10) 0 =
      sk.fcurves ++ [rawCurve1 n i] :=
    insertKey_fresh _ _ _ _ hfresh
  have e2 : insertKey (sk.fcurves ++ [rawCurve1 n i])
      (valuePath n) ((i : Int) * 10 + 10) 1 = sk.fcurves ++ [rawCurve2 n i] := by
    rw [insertKey_found_last _ _ _ _ _ hfresh rfl]
    simp only [rawCurve1, rawCurve2, insertPoint]
    rw [if_neg (by omega), if_neg (by omega)]
  have e3 : insertKey (sk.fcurves ++ [rawCurve2 n i])
      (valuePath n) ((i : Int) * 10 + 2 * 10) 0 = sk.fcurves ++ [rawCurve3 n i] := by
    rw [insertKey_found_last _ _ _ _ _ hfresh rfl]
    simp only [rawCurve2, rawCurve3, insertPoint]
    rw [if_neg (by omega), if_neg (by omega), if_neg (by omega), if_neg (by omega)]
  simp only [relStep]
  rw [e1, e2]
  by_cases hiK : i < K - 1
  · rw [if_pos hiK, e3, forceLinearOn_append, forceLinearOn_of_linear _ _ hlin]
    simp [forceLinearOn, setLinear, isValuePath_valuePath, relCurveSpec, rawCurve3, hiK]
  · rw [if_neg hiK, forceLinearOn_append, forceLinearOn_of_linear _ _ hlin]
    simp [forceLinearOn, setLinear, isValuePath_valuePath, relCurveSpec, rawCurve2, hiK]

/-- The full keyframe loop, run from enumeration index `i` over fresh,
pairwise-distinct names on an all-linear action, appends exactly the
claimed curves. -/
theorem relLoopAux_spec (K : Nat) (names : List String) (i : Nat)
    (sk : ShapeKeyBlock)
    (hfresh : ∀ n ∈ names, ∀ fc ∈ sk.fcurves, fc.data_path ≠ valuePath n)
    (hnodup : (names.map valuePath).Nodup)
    (hlin : ∀ fc ∈ sk.fcurves, ∀ kp ∈ fc.keyframe_points, kp.interpolation = "LINEAR") :
    relLoopAux K i names sk =
      { sk with fcurves := sk.fcurves ++ relCurvesSpec i K names } := by
  induction names generalizing i sk with
  | nil =>
    simp [relLoopAux, relCurvesSpec]
  | cons n rest ih =>
    have hstep := relStep_fresh K i n sk
      (hfresh n (List.mem_cons_self _ _)) hlin
    rw [relLoopAux, hstep]
    have hnewlin : ∀ fc ∈ sk.fcurves ++ [relCurveSpec n i K],
        ∀ kp ∈ fc.keyframe_points, kp.interpolation = "LINEAR" := by
      intro fc hfc kp hkp
      rcases List.mem_append.mp hfc with hmem | hmem
      · exact hlin fc hmem kp hkp
      · have hfc2 := List.mem_singleton.mp hmem
        subst hfc2
        by_cases hi : i < K - 1 <;> simp [relCurveSpec, hi] at hkp
        · rcases hkp with rfl | rfl | rfl <;> rfl
        · rcases hkp with rfl | rfl <;> rfl
    have hnewfresh : ∀ m ∈ rest, ∀ fc ∈ sk.fcurves ++ [relCurveSpec n i K],
        fc.data_path ≠ valuePath m := by
      intro m hm fc hfc
      rcases List.mem_append.mp hfc with hmem | hmem
      · exact hfresh m (List.mem_cons_of_mem _ hm) fc hmem
      · have hfc2 := List.mem_singleton.mp hmem
        subst hfc2
        show valuePath n ≠ valuePath m
        intro hnm
        have : valuePath n ∈ rest.map valuePath :=
          hnm ▸ List.mem_map_of_mem valuePath hm
        exact (List.nodup_cons.mp hnodup).1 this
    rw [ih (i + 1) _ hnewfresh (List.nodup_cons.mp hnodup).2 hnewlin]
    simp [relCurvesSpec, List.append_assoc]

/-- The join loop appends the joined objects' names as key blocks. -/
theorem joinShapes_eq (sk : ShapeKeyBlock) (rest : List Obj) :
    joinShapes sk rest =
      { sk with key_blocks := sk.key_blocks ++ rest.map (fun o => o.name) } := by
  induction rest generalizing sk with
  | nil =>
    simp [joinShapes]
  | cons o os ih =>
    simp only [joinShapes, List.foldl_cons] at *
    rw [ih]
    simp [List.append_assoc]

/-- After the write-back, looking up the base object's shape keys returns the
mutated block (the base object is present in the scene). -/
theorem find?_shapeKeys_update (l : List Obj) (nm : String) (blk : ShapeKeyBlock)
    (h : ∃ o ∈ l, o.name = nm) :
    ((l.map (fun o =>
        if o.name == nm then { o with select := true, shape_keys := some blk }
        else { o with select := false })).find? (fun o => o.name == nm)).bind
      (fun o => o.shape_keys) = some blk := by
  induction l with
  | nil =>
    obtain ⟨o, ho, _⟩ := h
    cases ho
  | cons a l ih =>
    simp only [List.map_cons]
    by_cases ha : a.name = nm
    · rw [List.find?_cons_of_pos]
      · simp [ha]
      · simp [ha]
    · rw [List.find?_cons_of_neg]
      · apply ih
        obtain ⟨o, ho, hn⟩ := h
        rcases List.mem_cons.mp ho with rfl | ho
        · exact absurd hn ha
        · exact ⟨o, ho, hn⟩
      · simp [ha]

theorem findShapeKeys_mergeWriteBack (scene : Scene) (nm : String)
    (blk : ShapeKeyBlock) (h : ∃ o ∈ scene.objects, o.name = nm) :
    findShapeKeys (mergeWriteBack scene nm blk) nm = some blk := by
  unfold findShapeKeys mergeWriteBack
  exact find?_shapeKeys_update scene.objects nm blk h

/-- Characterization of a relative-mode merge invocation whose sorted snapshot
list is `c1 :: rest` with a fresh base object. -/
theorem mergeExecute_relative_eq (scene : Scene) (c1 : Obj) (rest : List Obj)
    (hsort : sortCopies (copiesOf scene) = c1 :: rest)
    (hne : rest ≠ [])
    (hc1 : c1.shape_keys = none) :
    mergeExecute true scene =
      .finished (mergeWriteBack (modeFix scene) c1.name
        (relLoop (rest.map (fun o => o.name)).length (rest.map (fun o => o.name))
          (relBaseBlock (rest.map (fun o => o.name))))) := by
  have hlen : (copiesOf scene).length = rest.length + 1 := by
    have hp := (sortCopies_perm (copiesOf scene)).length_eq
    rw [hsort] at hp
    simpa using hp.symm
  have h2 : ¬ (copiesOf scene).length < 2 := by
    have : 0 < rest.length := List.length_pos.mpr hne
    omega
  have hfilter : (("Basis" :: rest.map (fun o => o.name)).filter
      (fun n => n != "Basis")) = rest.map (fun o => o.name) := by
    rw [List.filter_cons_of_neg (by simp)]
    apply List.filter_eq_self.mpr
    intro n hn
    obtain ⟨r, hr, rfl⟩ := List.mem_map.mp hn
    have hrs : r ∈ sortCopies (copiesOf scene) := by
      rw [hsort]
      exact List.mem_cons_of_mem _ hr
    have := (mem_copiesOf (mem_of_mem_sortCopies hrs)).2
    simpa using copy_name_ne_basis this
  simp only [mergeExecute, copiesOf_modeFix]
  rw [if_neg h2, hsort]
  simp only [hc1, shapeKeyAdd, joinShapes_eq, ensureAnim, Bool.not_true,
    Bool.false_eq_true, if_false, Bool.not_false, if_true, List.singleton_append,
    hfilter, relBaseBlock]

/-- C2: for a relative-mode merge invocation whose sorted snapshot list is
`c1 :: rest` (so the K := `rest.length` non-basis targets are created in
order), with a fresh base object and distinct snapshot names, the operation
finishes and the authored f-curves are exactly `relCurvesSpec 0 K` over the
target names: the target at 0-based ordinal `i` has a value keyframe 0 at
frame `i*10`, 1 at `i*10+10`, and — exactly when `i < K-1` — 0 at
`i*10+20`, every keyframe linear. -/
theorem merge_relative_keyframes (scene : Scene) (c1 : Obj) (rest : List Obj)
    (hsort : sortCopies (copiesOf scene) = c1 :: rest)
    (hne : rest ≠ [])
    (hc1 : c1.shape_keys = none)
    (hnodup : (rest.map (fun o => o.name)).Nodup) :
    isFinished (mergeExecute true scene) = true ∧
    (findShapeKeys (stateOf (mergeExecute true scene)) c1.name).map
        (fun b => b.fcurves) =
      some (relCurvesSpec 0 rest.length (rest.map (fun o => o.name))) := by
  rw [mergeExecute_relative_eq scene c1 rest hsort hne hc1]
  refine ⟨rfl, ?_⟩
  have hpaths : ((rest.map (fun o => o.name)).map valuePath).Nodup :=
    List.Nodup.map valuePath_injective hnodup
  have hspec := relLoopAux_spec (rest.map (fun o => o.name)).length
    (rest.map (fun o => o.name)) 0 (relBaseBlock (rest.map (fun o => o.name)))
    (by intro n hn fc hfc; cases hfc) hpaths (by intro fc hfc; cases hfc)
  simp only [stateOf, relLoop]
  rw [hspec, findShapeKeys_mergeWriteBack]
  · simp [relBaseBlock]
  · refine ⟨c1, ?_, rfl⟩
    rw [modeFix_objects]
    have hc1s : c1 ∈ sortCopies (copiesOf scene) := by
      rw [hsort]
      exact List.mem_cons_self _ _
    exact (mem_copiesOf (mem_of_mem_sortCopies hc1s)).1

/-- Witness for C2 on `relScene` (K = 2 non-basis targets). -/
theorem merge_relative_keyframes_witness :
    isFinished (mergeExecute true relScene) = true ∧
    (findShapeKeys (stateOf (mergeExecute true relScene)) (copyObj "copy1").name).map
        (fun b => b.fcurves) =
      some (relCurvesSpec 0 [copyObj "copy2", copyObj "copy3"].length
        ([copyObj "copy2", copyObj "copy3"].map (fun o => o.name))) :=
  merge_relative_keyframes relScene (copyObj "copy1")
    [copyObj "copy2", copyObj "copy3"] (by decide) (by decide) rfl (by decide)

end GeoNodesShapeKey
